import Mathlib

/-!
Verification of the marketplace data-model layer
(`backend/apps/marketplace/models.py`).

Monetary amounts are Django `DecimalField`s (exact base-10 fixed-point);
addition, subtraction and comparison on them are exact, so they are
embedded as rationals (`Rat`).  Stock is a Python `int` in memory
(the database column is a positive-integer field, but the in-memory
attribute is an unbounded signed integer), so it is embedded as `Int`.
Strings that the claims reason about character by character
(the order number) are embedded as lists of character code points.
A Python method that mutates `self` and may raise is embedded as a pure
function returning the outcome (`Except`) together with the final state
of the object; on a raise the state is the unchanged original, because
the source raises before any mutation.
-/

inductive WalletError where
  | invalidAmount
deriving DecidableEq

structure Wallet where
  user : Nat
  balance : Rat
  currency : String
deriving DecidableEq

/-- `Wallet.can_afford`: `return self.balance >= amount`. -/
def Wallet.can_afford (w : Wallet) (amount : Rat) : Bool :=
  decide (w.balance ≥ amount)

/-- `Wallet.add_funds`: raises `ValueError` when `amount <= 0`,
otherwise `self.balance += amount; self.save()`. -/
def Wallet.add_funds (w : Wallet) (amount : Rat) :
    Except WalletError Unit × Wallet :=
  if amount ≤ 0 then
    (Except.error WalletError.invalidAmount, w)
  else
    (Except.ok (), { w with balance := w.balance + amount })

/-- `Wallet.deduct_funds`: raises `ValueError` when `amount <= 0`;
returns `False` without mutation when `not self.can_afford(amount)`;
otherwise `self.balance -= amount; self.save(); return True`. -/
def Wallet.deduct_funds (w : Wallet) (amount : Rat) :
    Except WalletError Bool × Wallet :=
  if amount ≤ 0 then
    (Except.error WalletError.invalidAmount, w)
  else if ! w.can_afford amount then
    (Except.ok false, w)
  else
    (Except.ok true, { w with balance := w.balance - amount })

/-- C1: for every wallet with balance `b` and every amount `a > 0`,
`deduct_funds a` returns `true` and leaves the balance `b - a` iff
`b ≥ a`; when `b < a` it returns `false` and the balance is unchanged. -/
theorem Wallet.deduct_funds_spec (w : Wallet) (a : Rat) (ha : 0 < a) :
    ((w.deduct_funds a).1 = Except.ok true ∧
      ((w.deduct_funds a).2).balance = w.balance - a ↔ w.balance ≥ a) ∧
    (w.balance < a →
      (w.deduct_funds a).1 = Except.ok false ∧ (w.deduct_funds a).2 = w) := by
  have hna : ¬ a ≤ 0 := not_le.mpr ha
  constructor
  · constructor
    · intro hok
      by_contra hlt
      simp [Wallet.deduct_funds, Wallet.can_afford, hna, not_le.mp hlt,
        le_of_lt (not_le.mp hlt)] at hok
    · intro hge
      simp [Wallet.deduct_funds, Wallet.can_afford, hna, hge]
  · intro hlt
    simp [Wallet.deduct_funds, Wallet.can_afford, hna, hlt, not_le.mpr hlt]

/-- Witness for C1 at the spec scenario: a wallet with balance 100
and `deduct_funds 100`. -/
theorem Wallet.deduct_funds_spec_witness :
    (0 : Rat) < 100 ∧
    ((((Wallet.mk 1 100 "USD").deduct_funds 100).1 = Except.ok true ∧
        (((Wallet.mk 1 100 "USD").deduct_funds 100).2).balance =
          (100 : Rat) - 100 ↔ (100 : Rat) ≥ 100) ∧
      ((100 : Rat) < 100 →
        ((Wallet.mk 1 100 "USD").deduct_funds 100).1 = Except.ok false ∧
          ((Wallet.mk 1 100 "USD").deduct_funds 100).2 =
            Wallet.mk 1 100 "USD")) :=
  ⟨by norm_num, Wallet.deduct_funds_spec (Wallet.mk 1 100 "USD") 100 (by norm_num)⟩

/-- C2: for every wallet and every amount `a ≤ 0`, both `add_funds a`
and `deduct_funds a` raise the invalid-amount error and leave the
wallet (hence the balance) unchanged. -/
theorem Wallet.nonpositive_amount_spec (w : Wallet) (a : Rat) (ha : a ≤ 0) :
    (w.add_funds a).1 = Except.error WalletError.invalidAmount ∧
    (w.add_funds a).2 = w ∧
    (w.deduct_funds a).1 = Except.error WalletError.invalidAmount ∧
    (w.deduct_funds a).2 = w := by
  simp [Wallet.add_funds, Wallet.deduct_funds, ha]

/-- Witness for C2 at amount 0 on a wallet with balance 5. -/
theorem Wallet.nonpositive_amount_spec_witness :
    (0 : Rat) ≤ 0 ∧
    (((Wallet.mk 2 5 "USD").add_funds 0).1 =
        Except.error WalletError.invalidAmount ∧
      ((Wallet.mk 2 5 "USD").add_funds 0).2 = Wallet.mk 2 5 "USD" ∧
      ((Wallet.mk 2 5 "USD").deduct_funds 0).1 =
        Except.error WalletError.invalidAmount ∧
      ((Wallet.mk 2 5 "USD").deduct_funds 0).2 = Wallet.mk 2 5 "USD") :=
  ⟨le_refl 0, Wallet.nonpositive_amount_spec (Wallet.mk 2 5 "USD") 0 (le_refl 0)⟩

structure Product where
  seller : Nat
  is_active : Bool
  price : Rat
  stock : Int
deriving DecidableEq

/-- `Product.is_available`: `return self.is_active and self.stock > 0`. -/
def Product.is_available (p : Product) : Bool :=
  p.is_active && decide (p.stock > 0)

/-- `Product.decrease_stock`: if `self.stock >= quantity` then
`self.stock -= quantity; self.save(); return True` else `return False`. -/
def Product.decrease_stock (p : Product) (quantity : Int) : Bool × Product :=
  if p.stock ≥ quantity then
    (true, { p with stock := p.stock - quantity })
  else
    (false, p)

/-- `Product.increase_stock`: `self.stock += quantity; self.save()`,
unconditionally. -/
def Product.increase_stock (p : Product) (quantity : Int) : Product :=
  { p with stock := p.stock + quantity }

/-- C3: for every product with stock `s` and every quantity `q`,
`decrease_stock q` returns `true` and leaves the stock `s - q` iff
`s ≥ q`; otherwise the stock is unchanged and it returns `false`. -/
theorem Product.decrease_stock_spec (p : Product) (q : Int) :
    ((p.decrease_stock q).1 = true ∧
      ((p.decrease_stock q).2).stock = p.stock - q ↔ p.stock ≥ q) ∧
    (¬ p.stock ≥ q →
      (p.decrease_stock q).1 = false ∧ (p.decrease_stock q).2 = p) := by
  constructor
  · constructor
    · intro hok
      by_contra hlt
      simp [Product.decrease_stock, hlt] at hok
    · intro hge
      simp [Product.decrease_stock, hge]
  · intro hlt
    simp [Product.decrease_stock, hlt]

/-- Witness for C3 at the spec scenario: stock 5, `decrease_stock 3`. -/
theorem Product.decrease_stock_spec_witness :
    (((Product.mk 1 true 10 5).decrease_stock 3).1 = true ∧
      (((Product.mk 1 true 10 5).decrease_stock 3).2).stock = 5 - 3 ↔
        (5 : Int) ≥ 3) ∧
    (¬ (5 : Int) ≥ 3 →
      ((Product.mk 1 true 10 5).decrease_stock 3).1 = false ∧
        ((Product.mk 1 true 10 5).decrease_stock 3).2 = Product.mk 1 true 10 5) :=
  Product.decrease_stock_spec (Product.mk 1 true 10 5) 3

/-- C4: `increase_stock q` always succeeds and leaves the stock `s + q`. -/
theorem Product.increase_stock_spec (p : Product) (q : Int) :
    (p.increase_stock q).stock = p.stock + q := rfl

/-- C7 counterexample: on a product with stock 0 (which is `≥ 0`),
`increase_stock (-5)` leaves the stock `-5 < 0`: the claimed
nonnegativity invariant fails for negative quantities. -/
theorem Product.stock_nonneg_counterexample :
    (0 : Int) ≤ (Product.mk 1 true 10 0).stock ∧
    ((Product.mk 1 true 10 0).increase_stock (-5)).stock = -5 ∧
    ¬ (0 : Int) ≤ ((Product.mk 1 true 10 0).increase_stock (-5)).stock := by
  refine ⟨le_refl 0, rfl, ?_⟩
  decide

/-- C7 amended: for every product with stock `≥ 0`, `decrease_stock q`
for any integer `q` leaves the stock `≥ 0`, and `increase_stock q` for
any `q ≥ 0` leaves the stock `≥ 0`. -/
theorem Product.stock_nonneg_amended (p : Product) (q : Int)
    (hs : 0 ≤ p.stock) :
    0 ≤ ((p.decrease_stock q).2).stock ∧
    (0 ≤ q → 0 ≤ (p.increase_stock q).stock) := by
  constructor
  · by_cases hge : p.stock ≥ q
    · simp only [Product.decrease_stock, hge, if_pos]
      omega
    · simp [Product.decrease_stock, hge, hs]
  · intro hq
    simp only [Product.increase_stock]
    omega

/-- Witness for the amended C7 at stock 2, quantity 7. -/
theorem Product.stock_nonneg_amended_witness :
    (0 : Int) ≤ 2 ∧
    (0 ≤ (((Product.mk 1 true 10 2).decrease_stock 7).2).stock ∧
      (0 ≤ (7 : Int) → 0 ≤ ((Product.mk 1 true 10 2).increase_stock 7).stock)) :=
  ⟨by decide, Product.stock_nonneg_amended (Product.mk 1 true 10 2) 7 (by decide)⟩

structure OrderItem where
  order : Nat
  product : Nat
  quantity : Nat
  price : Rat
  total_price : Rat
deriving DecidableEq

/-- `OrderItem.save`: `self.total_price = self.quantity * self.price`
before persisting. -/
def OrderItem.save (i : OrderItem) : OrderItem :=
  { i with total_price := (i.quantity : Rat) * i.price }

/-- C5: after every save, `total_price` equals `quantity × price`
exactly, regardless of any caller-supplied `total_price` value. -/
theorem OrderItem.save_total_price (i : OrderItem) (t : Rat) :
    (OrderItem.save { i with total_price := t }).total_price =
      (i.quantity : Rat) * i.price := rfl

/-- One call against a wallet, with its amount: the three public
operations of `Wallet`. -/
inductive WalletOp where
  | can_afford (amount : Rat)
  | add_funds (amount : Rat)
  | deduct_funds (amount : Rat)

/-- The wallet state after one call, whatever its outcome (a raise
leaves the object unchanged; `can_afford` is a pure read). -/
def Wallet.apply (w : Wallet) : WalletOp → Wallet
  | WalletOp.can_afford _ => w
  | WalletOp.add_funds a => (w.add_funds a).2
  | WalletOp.deduct_funds a => (w.deduct_funds a).2

/-- The wallet state after a sequence of calls. -/
def Wallet.run (w : Wallet) (ops : List WalletOp) : Wallet :=
  ops.foldl Wallet.apply w

/-- A single call preserves nonnegativity of the balance. -/
theorem Wallet.apply_balance_nonneg (w : Wallet) (op : WalletOp)
    (hw : 0 ≤ w.balance) : 0 ≤ (w.apply op).balance := by
  cases op with
  | can_afford a => exact hw
  | add_funds a =>
    by_cases ha : a ≤ 0
    · simpa [Wallet.apply, Wallet.add_funds, ha] using hw
    · simp only [Wallet.apply, Wallet.add_funds, ha, if_neg, if_false]
      have : (0 : Rat) < a := lt_of_not_le ha
      linarith
  | deduct_funds a =>
    by_cases ha : a ≤ 0
    · simpa [Wallet.apply, Wallet.deduct_funds, ha] using hw
    · by_cases hc : w.can_afford a
      · have hba : a ≤ w.balance := by
          simpa [Wallet.can_afford] using hc
        simp only [Wallet.apply, Wallet.deduct_funds, ha, if_false, hc,
          Bool.not_true, if_neg, Bool.false_eq_true]
        linarith
      · simpa [Wallet.apply, Wallet.deduct_funds, ha, hc] using hw

/-- C6: the wallet balance is never negative: starting from a
nonnegative balance, every sequence of `can_afford`, `add_funds` and
`deduct_funds` calls, with any amounts (including failing ones),
leaves the balance nonnegative. -/
theorem Wallet.balance_nonneg_invariant (w : Wallet) (ops : List WalletOp)
    (hw : 0 ≤ w.balance) : 0 ≤ (w.run ops).balance := by
  induction ops generalizing w with
  | nil => exact hw
  | cons op rest ih =>
    exact ih (w.apply op) (Wallet.apply_balance_nonneg w op hw)

/-- Witness for C6 on a concrete call sequence, including a raising
call (amount −2), a refused deduction (amount 10) and a successful
deduction. -/
theorem Wallet.balance_nonneg_invariant_witness :
    (0 : Rat) ≤ 1 ∧
    0 ≤ ((Wallet.mk 3 1 "USD").run
      [WalletOp.add_funds 5, WalletOp.deduct_funds 10,
        WalletOp.add_funds (-2), WalletOp.can_afford 4,
        WalletOp.deduct_funds 6]).balance :=
  ⟨by norm_num,
    Wallet.balance_nonneg_invariant (Wallet.mk 3 1 "USD")
      [WalletOp.add_funds 5, WalletOp.deduct_funds 10,
        WalletOp.add_funds (-2), WalletOp.can_afford 4,
        WalletOp.deduct_funds 6] (by norm_num)⟩

/-- C10: `add_funds` and `deduct_funds` touch only the balance: the
user reference and the currency are the same before and after the call,
whether it succeeds, returns `false`, or raises. -/
theorem Wallet.funds_frame (w : Wallet) (a : Rat) :
    ((w.add_funds a).2).user = w.user ∧
    ((w.add_funds a).2).currency = w.currency ∧
    ((w.deduct_funds a).2).user = w.user ∧
    ((w.deduct_funds a).2).currency = w.currency := by
  refine ⟨?_, ?_, ?_, ?_⟩ <;>
    · simp only [Wallet.add_funds, Wallet.deduct_funds]
      split
      · rfl
      · first
        | rfl
        | split <;> rfl

/-- ASCII `str.upper` on one code point, as Python applies it to the
hexadecimal digits of `uuid4().hex`. -/
def toUpperCode (c : Nat) : Nat :=
  if 97 ≤ c ∧ c ≤ 122 then c - 32 else c

/-- A lowercase hexadecimal digit code point (`0`–`9`, `a`–`f`), the
alphabet of `uuid.uuid4().hex`. -/
def isLowerHexDigit (c : Nat) : Bool :=
  (48 ≤ c && c ≤ 57) || (97 ≤ c && c ≤ 102)

/-- An uppercase hexadecimal digit code point (`0`–`9`, `A`–`F`). -/
def isUpperHexDigit (c : Nat) : Bool :=
  (48 ≤ c && c ≤ 57) || (65 ≤ c && c ≤ 70)

/-- The code points of the literal prefix `ORD-`. -/
def ordPrefixCodes : List Nat := [79, 82, 68, 45]

structure Order where
  buyer : Nat
  order_number : List Nat
  total_price : Rat
deriving DecidableEq

/-- `Order.save`: `if not self.order_number:` (the empty string is
falsy) `self.order_number = f"ORD-..."` built from the first 8
characters of `uuid.uuid4().hex`, uppercased; then persists.  The
random 32-character hex string drawn inside the method is passed in
explicitly as `uuidHex`. -/
def Order.save (o : Order) (uuidHex : List Nat) : Order :=
  if o.order_number = [] then
    { o with order_number := ordPrefixCodes ++ (uuidHex.take 8).map toUpperCode }
  else o

theorem toUpperCode_hex (c : Nat) (h : isLowerHexDigit c = true) :
    isUpperHexDigit (toUpperCode c) = true := by
  simp only [isLowerHexDigit, Bool.or_eq_true, Bool.and_eq_true,
    decide_eq_true_eq] at h
  simp only [isUpperHexDigit, toUpperCode, Bool.or_eq_true, Bool.and_eq_true,
    decide_eq_true_eq]
  split <;> omega

/-- C8: a save leaves an already-set order number unchanged; a save on
an order with no order number assigns `ORD-` followed by 8 uppercase
hexadecimal code points, obtained from the random identifier's
32-character lowercase hex form. -/
theorem Order.save_order_number_spec (o : Order) (uuidHex : List Nat)
    (hlen : uuidHex.length = 32)
    (hhex : ∀ c ∈ uuidHex, isLowerHexDigit c = true) :
    (o.order_number ≠ [] → (o.save uuidHex).order_number = o.order_number) ∧
    (o.order_number = [] →
      ∃ t, (o.save uuidHex).order_number = ordPrefixCodes ++ t ∧
        t.length = 8 ∧ ∀ c ∈ t, isUpperHexDigit c = true) := by
  constructor
  · intro hne
    simp [Order.save, hne]
  · intro hempty
    refine ⟨(uuidHex.take 8).map toUpperCode, ?_, ?_, ?_⟩
    · simp [Order.save, hempty]
    · simp [List.length_take, hlen]
    · intro c hc
      simp only [List.mem_map] at hc
      obtain ⟨d, hd, rfl⟩ := hc
      exact toUpperCode_hex d (hhex d (List.mem_of_mem_take hd))

/-- Witness for C8 on an order with no order number and a concrete
32-character uuid hex string. -/
theorem Order.save_order_number_spec_witness :
    ([97, 98, 99, 100, 101, 102, 48, 49, 50, 51, 52, 53, 54, 55, 56, 57,
        97, 98, 99, 100, 101, 102, 48, 49, 50, 51, 52, 53, 54, 55, 56,
        57] : List Nat).length = 32 ∧
    ((Order.mk 1 [] 10).order_number ≠ [] →
      ((Order.mk 1 [] 10).save
          [97, 98, 99, 100, 101, 102, 48, 49, 50, 51, 52, 53, 54, 55, 56,
            57, 97, 98, 99, 100, 101, 102, 48, 49, 50, 51, 52, 53, 54, 55,
            56, 57]).order_number = (Order.mk 1 [] 10).order_number) ∧
    ((Order.mk 1 [] 10).order_number = [] →
      ∃ t, ((Order.mk 1 [] 10).save
          [97, 98, 99, 100, 101, 102, 48, 49, 50, 51, 52, 53, 54, 55, 56,
            57, 97, 98, 99, 100, 101, 102, 48, 49, 50, 51, 52, 53, 54, 55,
            56, 57]).order_number = ordPrefixCodes ++ t ∧
        t.length = 8 ∧ ∀ c ∈ t, isUpperHexDigit c = true) :=
  ⟨by decide,
    Order.save_order_number_spec (Order.mk 1 [] 10)
      [97, 98, 99, 100, 101, 102, 48, 49, 50, 51, 52, 53, 54, 55, 56, 57,
        97, 98, 99, 100, 101, 102, 48, 49, 50, 51, 52, 53, 54, 55, 56, 57]
      (by decide) (by decide)⟩

/-- A category is its (nullable) parent reference; an inductive value
is exactly a finite, acyclic parent chain, the hypothesis of C9. -/
inductive Category where
  | mk (parent : Option Category)

/-- The `parent` field. -/
def Category.parent : Category → Option Category
  | Category.mk p => p

/-- `Category.is_root`: `return self.parent is None`. -/
def Category.is_root (c : Category) : Bool :=
  c.parent.isNone

/-- `Category.level`: `0` if root, else `self.parent.level + 1`. -/
def Category.level : Category → Nat
  | Category.mk none => 0
  | Category.mk (some p) => Category.level p + 1

/-- C9: a root category has level 0, and a category with a parent has
level one more than its parent's. -/
theorem Category.level_spec (c : Category) :
    (c.is_root = true → c.level = 0) ∧
    (∀ p, c.parent = some p → c.level = p.level + 1) := by
  cases c with
  | mk parent =>
    cases parent with
    | none =>
      refine ⟨fun _ => rfl, fun p hp => ?_⟩
      simp [Category.parent] at hp
    | some q =>
      refine ⟨fun h => ?_, fun p hp => ?_⟩
      · simp [Category.is_root, Category.parent, Option.isNone] at h
      · simp only [Category.parent, Option.some.injEq] at hp
        subst hp
        rfl

/-- Witness for C9 at a grandchild of a root: the chain root → child →
grandchild has levels 0, 1, 2. -/
theorem Category.level_spec_witness :
    ((Category.mk (some (Category.mk (some (Category.mk none))))).is_root =
        true →
      (Category.mk (some (Category.mk (some (Category.mk none))))).level =
        0) ∧
    (∀ p,
      (Category.mk (some (Category.mk (some (Category.mk none))))).parent =
          some p →
        (Category.mk (some (Category.mk (some (Category.mk none))))).level =
          p.level + 1) :=
  Category.level_spec (Category.mk (some (Category.mk (some (Category.mk none)))))
